import Mathlib

/-!
Verification development for the bounded artifact registry of
`src/cross_stitch_web/file_queue.py` (class `FileQueueManager` and the
module-level singleton helpers).

The embedding is shallow:

* JSON values are the inductive `FileQueue.Json`; the manifest file's
  content is `FileQueue.MFile` (absent / empty / parsed JSON / content
  that fails JSON parsing).
* An artifact record is the structure `FileQueue.Record`, with the seven
  fields and field names used by the Python dicts.  Python's `float`
  timestamps are modelled as `ℚ`.
* The filesystem visible to the manager is an association list from path
  to size (`FileQueue.FS`); `os.path.exists`, `os.path.getsize` and
  `os.remove` are the obvious operations on it.  File deletion is
  modelled as succeeding whenever the file exists (the `except` arms in
  the source absorb environmental I/O errors that the model does not
  generate).
* Each method of `FileQueueManager` becomes a function on the state
  `FileQueue.RegState`.  The `with self.lock:` blocks are modelled in two
  ways: the plain functions below treat each locked block as one atomic
  state transition (the intended sequential semantics), while the
  `LockM` functions at the end of the definitions model the
  non-reentrant `threading.Lock` explicitly, so that the self-deadlock
  of `add_file` (which calls `enforce_queue_size` while already holding
  the lock) can be proved.
-/

namespace FileQueue

/-- JSON values, as produced by Python's `json` module: strings, numbers
(ints and floats are both modelled as `ℚ`), booleans, null, arrays and
objects (ordered key/value lists, as Python dicts preserve insertion
order). -/
inductive Json where
  | str (s : String)
  | num (q : ℚ)
  | boolean (b : Bool)
  | null
  | arr (elems : List Json)
  | obj (fields : List (String × Json))

/-- One artifact record, the dict built in `FileQueueManager.add_file`
(file_queue.py lines 140-148): keys `file_id`, `file_path`, `file_name`,
`file_size`, `timestamp`, `datetime`, `file_type`. -/
structure Record where
  file_id : String
  file_path : String
  file_name : String
  file_size : ℕ
  timestamp : ℚ
  datetime : String
  file_type : String
deriving DecidableEq

/-- Abstracts `datetime.fromtimestamp(t).isoformat()` (file_queue.py line
146): a rendering of the timestamp as a string.  The exact textual format
plays no role in any claim, only that it is a function of the timestamp. -/
def isoOfTimestamp (t : ℚ) : String :=
  toString t.num ++ "at" ++ toString t.den

/-- Abstracts `os.path.basename` (file_queue.py line 143): the component
after the last path separator. -/
def baseName (p : String) : String :=
  (p.splitOn "/").getLastD p

/-- The filesystem visible to the manager: paths with their sizes. -/
abbrev FS := List (String × ℕ)

/-- Model of `os.path.exists`. -/
def pathExists (fs : FS) (p : String) : Bool :=
  fs.any (fun e => e.1 == p)

/-- Model of `os.path.getsize` (only called after an existence check). -/
def getSize (fs : FS) (p : String) : ℕ :=
  (fs.lookup p).getD 0

/-- Model of `os.remove`. -/
def removeFromFS (fs : FS) (p : String) : FS :=
  fs.filter (fun e => !(e.1 == p))

/-- Serialization of one record, as written by `json.dump` in
`_save_queue` (file_queue.py line 91): a flat object with the seven keys. -/
def encodeRecord (r : Record) : Json :=
  .obj [("file_id", .str r.file_id),
        ("file_path", .str r.file_path),
        ("file_name", .str r.file_name),
        ("file_size", .num r.file_size),
        ("timestamp", .num r.timestamp),
        ("datetime", .str r.datetime),
        ("file_type", .str r.file_type)]

/-- Serialization of the whole queue: a JSON array of record objects. -/
def encodeQueue (q : List Record) : Json :=
  .arr (q.map encodeRecord)

/-- Extracts a JSON string. -/
def jStr : Json → Option String
  | .str s => some s
  | _ => none

/-- Extracts a JSON number as a natural (Python ints such as `file_size`). -/
def jNat : Json → Option ℕ
  | .num q => if q.den = 1 ∧ 0 ≤ q.num then some q.num.toNat else none
  | _ => none

/-- Extracts a JSON number as a rational (Python floats such as `timestamp`). -/
def jRat : Json → Option ℚ
  | .num q => some q
  | _ => none

/-- Reads one record back from its JSON object. -/
def decodeRecord (j : Json) : Option Record :=
  match j with
  | .obj fields => do
      let fid ← fields.lookup "file_id" >>= jStr
      let fpath ← fields.lookup "file_path" >>= jStr
      let fname ← fields.lookup "file_name" >>= jStr
      let fsize ← fields.lookup "file_size" >>= jNat
      let ts ← fields.lookup "timestamp" >>= jRat
      let dt ← fields.lookup "datetime" >>= jStr
      let ftype ← fields.lookup "file_type" >>= jStr
      pure ⟨fid, fpath, fname, fsize, ts, dt, ftype⟩
  | _ => none

/-- Content of the manifest file `.file_queue.json` as `_load_queue` can
find it: missing, zero-length or whitespace-only, well-formed JSON, or
content on which `json.loads` raises `JSONDecodeError`. -/
inductive MFile where
  | absent
  | emptyFile
  | jsonContent (j : Json)
  | malformed

/-- Result of `_load_queue`: the loaded records, and whether the manifest
file was renamed aside to a timestamped `.bak` copy. -/
structure LoadResult where
  records : List Record
  backupMade : Bool
deriving DecidableEq

/-- Model of `FileQueueManager._load_queue` (file_queue.py lines 47-83).
Missing file, zero-length file and whitespace-only content give an empty
queue.  Well-formed JSON that is a list is returned as the queue;
well-formed JSON of any other shape only logs a warning and gives an
empty queue, with no backup made.  Content that fails JSON parsing gives
an empty queue after the file is renamed to a timestamped backup name
(the `JSONDecodeError` branch, lines 70-79).  One typing restriction: the
Python code returns the parsed list raw, whatever its elements are; the
typed model returns records only when every element decodes as a record
object, and an empty queue otherwise (no claim below exercises a list
with non-record elements). -/
def loadQueue : MFile → LoadResult
  | .absent => ⟨[], false⟩
  | .emptyFile => ⟨[], false⟩
  | .jsonContent j =>
      match j with
      | .arr es =>
          match es.mapM decodeRecord with
          | some rs => ⟨rs, false⟩
          | none => ⟨[], false⟩
      | _ => ⟨[], false⟩
  | .malformed => ⟨[], true⟩

/-- State of one `FileQueueManager` instance together with the parts of
its environment the methods touch: the configuration from `__init__`,
the in-memory `file_queue`, the filesystem, the manifest file content,
and a counter of `_save_queue` calls (to state how often an operation
persists). -/
structure RegState where
  uploadDir : String
  maxQueueSize : ℕ
  maxFileAgeHours : ℕ
  fileQueue : List Record
  fs : FS
  manifest : MFile
  saveCount : ℕ

/-- Model of `FileQueueManager._save_queue` (file_queue.py lines 85-97):
atomically replaces the manifest with the JSON serialization of the
in-memory queue.  The temp-file-plus-rename mechanics collapse to one
atomic update of the manifest content. -/
def saveQueue (s : RegState) : RegState :=
  { s with manifest := .jsonContent (encodeQueue s.fileQueue),
           saveCount := s.saveCount + 1 }

/-- Inserts a record into a timestamp-sorted list, after every record
with a smaller-or-equal timestamp. -/
def insertByTimestamp (a : Record) : List Record → List Record
  | [] => [a]
  | b :: l => if b.timestamp ≤ a.timestamp then b :: insertByTimestamp a l
              else a :: b :: l

/-- Model of `sorted(self.file_queue, key=lambda x: x["timestamp"])`
(file_queue.py line 255).  Python's `sorted` is a stable sort; inserting
the elements left to right, each after all earlier elements with a
smaller-or-equal timestamp, produces exactly the stable sort: equal
timestamps keep their relative order from the input list. -/
def sortByTimestamp (q : List Record) : List Record :=
  q.foldl (fun acc a => insertByTimestamp a acc) []

/-- Model of the deletion loops of `remove_by_file_id`,
`enforce_queue_size` and `force_cleanup_all`: for each record in order,
if its backing file exists it is removed and the counter incremented;
records whose backing file is already gone are skipped and NOT counted. -/
def deleteFiles (fs : FS) (rs : List Record) : ℕ × FS :=
  rs.foldl
    (fun acc r =>
      if pathExists acc.2 r.file_path then (acc.1 + 1, removeFromFS acc.2 r.file_path)
      else acc)
    (0, fs)

/-- Model of `FileQueueManager.enforce_queue_size` (file_queue.py lines
248-278).  At or under capacity: returns 0 and changes nothing (no
save).  Over capacity: stable-sorts the queue by timestamp, deletes the
backing files of the first `len - max_queue_size` sorted records
(counting only files that existed), keeps the remaining sorted suffix as
the new queue — in sorted order, not the previous order — and persists
once.  Returns the number of files actually deleted. -/
def enforceQueueSize (s : RegState) : ℕ × RegState :=
  if s.fileQueue.length ≤ s.maxQueueSize then (0, s)
  else
    let sortedQueue := sortByTimestamp s.fileQueue
    let removeCount := sortedQueue.length - s.maxQueueSize
    let filesToRemove := sortedQueue.take removeCount
    let del := deleteFiles s.fs filesToRemove
    (del.1, saveQueue { s with fileQueue := sortedQueue.drop removeCount, fs := del.2 })

/-- The record built by `add_file` for an existing path. -/
def mkRecord (path fid ftype : String) (now : ℚ) (size : ℕ) : Record :=
  ⟨fid, path, baseName path, size, now, isoOfTimestamp now, ftype⟩

/-- Model of `FileQueueManager.add_file` (file_queue.py lines 121-157)
under the intended atomic semantics of its lock block: if the path does
not exist, returns `none` and changes nothing; otherwise appends the new
record, persists, runs count-based eviction, and returns the record.
The self-deadlock of the real code on the nested lock acquisition is
modelled separately by `addFileL` below. -/
def addFile (s : RegState) (path fid ftype : String) (now : ℚ) :
    Option Record × RegState :=
  if pathExists s.fs path then
    let r := mkRecord path fid ftype now (getSize s.fs path)
    let s1 := saveQueue { s with fileQueue := s.fileQueue ++ [r] }
    (some r, (enforceQueueSize s1).2)
  else (none, s)

/-- Model of `FileQueueManager.remove_file` (file_queue.py lines 159-183):
if some record has the given path, every record with that path is dropped
from the queue, the backing file is deleted best-effort, the queue is
persisted and `true` is returned; otherwise `false` and no change. -/
def removeFile (s : RegState) (path : String) : Bool × RegState :=
  if s.fileQueue.any (fun f => f.file_path == path) then
    (true, saveQueue { s with
        fileQueue := s.fileQueue.filter (fun f => !(f.file_path == path)),
        fs := removeFromFS s.fs path })
  else (false, s)

/-- Model of `FileQueueManager.remove_by_file_id` (file_queue.py lines
185-211): with no matching record, returns 0 without persisting.
Otherwise deletes the matching records' backing files best-effort
(counting only the files that existed), drops every matching record from
the queue, persists once, and returns the deletion count. -/
def removeByFileId (s : RegState) (fid : String) : ℕ × RegState :=
  let filesToRemove := s.fileQueue.filter (fun f => f.file_id == fid)
  if filesToRemove.isEmpty then (0, s)
  else
    let del := deleteFiles s.fs filesToRemove
    (del.1, saveQueue { s with
        fileQueue := s.fileQueue.filter (fun f => !(f.file_id == fid)),
        fs := del.2 })

/-- Total byte size of the queue, `sum(f.get("file_size", 0) ...)`
(file_queue.py line 283). -/
def totalSize (q : List Record) : ℕ :=
  (q.map Record.file_size).sum

/-- Smallest timestamp of the queue, `min([...])` guarded by emptiness
(file_queue.py line 284). -/
def oldestTimestamp (q : List Record) : Option ℚ :=
  match q.map Record.timestamp with
  | [] => none
  | t :: ts => some (ts.foldl min t)

/-- Largest timestamp of the queue (file_queue.py line 285). -/
def newestTimestamp (q : List Record) : Option ℚ :=
  match q.map Record.timestamp with
  | [] => none
  | t :: ts => some (ts.foldl max t)

/-- One step of `_count_by_type`: `counts[ftype] = counts.get(ftype, 0) + 1`
on an insertion-ordered dict. -/
def bumpCount (counts : List (String × ℕ)) (k : String) : List (String × ℕ) :=
  match counts with
  | [] => [(k, 1)]
  | (k', n) :: rest =>
      if k' == k then (k', n + 1) :: rest else (k', n) :: bumpCount rest k

/-- Model of `FileQueueManager._count_by_type` (file_queue.py lines
297-303). -/
def countByType (q : List Record) : List (String × ℕ) :=
  q.foldl (fun acc f => bumpCount acc f.file_type) []

/-- Rounding to the nearest integer with ties to the nearest even integer,
as Python's `round` does. -/
def roundHalfEven (q : ℚ) : ℤ :=
  if Int.fract q = 1 / 2 then (if 2 ∣ ⌊q⌋ then ⌊q⌋ else ⌊q⌋ + 1)
  else round q

/-- Model of Python's `round(x, 2)` on an exactly represented value. -/
def pyRound2 (q : ℚ) : ℚ :=
  (roundHalfEven (q * 100) : ℚ) / 100

/-- The dict returned by `get_queue_stats` (file_queue.py lines 287-295).
Note the size field: the code exposes `total_size_mb`, the byte total
divided by 1024*1024 and rounded to two decimal places — not a byte
count. -/
structure Stats where
  total_files : ℕ
  total_size_mb : ℚ
  max_queue_size : ℕ
  max_file_age_hours : ℕ
  oldest_file : Option String
  newest_file : Option String
  files_by_type : List (String × ℕ)

/-- Model of `FileQueueManager.get_queue_stats` (file_queue.py lines
280-295): a read under the lock that mutates nothing; the unchanged state
is returned alongside the stats to make that explicit. -/
def getQueueStats (s : RegState) : Stats × RegState :=
  (⟨s.fileQueue.length,
    pyRound2 ((totalSize s.fileQueue : ℚ) / (1024 * 1024)),
    s.maxQueueSize,
    s.maxFileAgeHours,
    (oldestTimestamp s.fileQueue).map isoOfTimestamp,
    (newestTimestamp s.fileQueue).map isoOfTimestamp,
    countByType s.fileQueue⟩, s)

/-- One Registry API call, for reasoning about call sequences. -/
inductive Op where
  | add (path fid ftype : String) (now : ℚ)
  | removeByPath (path : String)
  | removeById (fid : String)

/-- Applies one call (under the atomic semantics of each lock block). -/
def applyOp (s : RegState) : Op → RegState
  | .add p fid ftype now => (addFile s p fid ftype now).2
  | .removeByPath p => (removeFile s p).2
  | .removeById fid => (removeByFileId s fid).2

/-- Applies a sequence of calls in order. -/
def runOps (s : RegState) (ops : List Op) : RegState :=
  ops.foldl applyOp s

/-- Holds when, along the execution of `ops` from `s`, every `add` call
is made with a path that is not the path of any record then live. -/
def freshAdds (s : RegState) : List Op → Bool
  | [] => true
  | op :: rest =>
      (match op with
       | .add p _ _ _ => decide (p ∉ s.fileQueue.map Record.file_path)
       | _ => true) && freshAdds (applyOp s op) rest

/-- Computations of a single caller against the registry whose lock is the
non-reentrant `threading.Lock` of file_queue.py line 36.  The `Bool`
component records whether the lock is currently held by this caller.
A result of `none` means the computation never completes: with no
concurrent activity, a blocked `acquire` can never be satisfied, because
only the blocked caller itself could release the lock. -/
def LockM (α : Type) : Type :=
  RegState × Bool → Option (α × RegState × Bool)

/-- Acquiring the non-reentrant lock: blocks forever (for a single
caller) when the lock is already held, which is exactly the case of a
nested `with self.lock:` block. -/
def acquireLock : RegState × Bool → Option (RegState × Bool) :=
  fun st => if st.2 then none else some (st.1, true)

/-- A `with self.lock:` block: acquire, run the body, release. -/
def withLock (body : LockM α) : LockM α :=
  fun st =>
    match acquireLock st with
    | none => none
    | some st' =>
        match body st' with
        | none => none
        | some (a, s, _) => some (a, s, false)

/-- `enforce_queue_size` with its own `with self.lock:` block
(file_queue.py line 250) made explicit. -/
def enforceQueueSizeL : LockM ℕ :=
  withLock (fun st =>
    let r := enforceQueueSize st.1
    some (r.1, r.2, st.2))

/-- `add_file` with its lock usage made explicit (file_queue.py lines
133-157): the whole body runs inside `with self.lock:`, and after
appending and saving it calls `self.enforce_queue_size()` — which starts
with its own `with self.lock:` on the same non-reentrant lock. -/
def addFileL (path fid ftype : String) (now : ℚ) : LockM (Option Record) :=
  withLock (fun st =>
    let s := st.1
    if pathExists s.fs path then
      let r := mkRecord path fid ftype now (getSize s.fs path)
      let s1 := saveQueue { s with fileQueue := s.fileQueue ++ [r] }
      match enforceQueueSizeL (s1, st.2) with
      | none => none
      | some (_, s2, held2) => some (some r, s2, held2)
    else some (none, s, st.2))

/-- Model of `FileQueueManager.__init__` (file_queue.py lines 23-45):
records the configuration and loads the queue from the manifest (on
content that fails JSON parsing the manifest is renamed aside, leaving
the canonical path absent).  The background cleanup thread it starts is
outside the claims settled here. -/
def mkManager (uploadDir : String) (maxQ maxAge : ℕ) (m : MFile) (fs : FS) :
    RegState :=
  { uploadDir := uploadDir,
    maxQueueSize := maxQ,
    maxFileAgeHours := maxAge,
    fileQueue := (loadQueue m).records,
    fs := fs,
    manifest := if (loadQueue m).backupMade then .absent else m,
    saveCount := 0 }

/-- Model of `init_queue_manager` (file_queue.py lines 331-337) acting on
the module global `_queue_manager`: the first argument is the current
value of the global, the result pairs the returned manager with the new
value of the global.  A second call finds the global set and returns it
untouched, ignoring every configuration argument. -/
def initQueueManager (g : Option RegState) (uploadDir : String)
    (maxQ maxAge : ℕ) (m : MFile) (fs : FS) : RegState × Option RegState :=
  match g with
  | some mgr => (mgr, some mgr)
  | none =>
      let mgr := mkManager uploadDir maxQ maxAge m fs
      (mgr, some mgr)

/-- A filesystem holding the three files of the spec's `max_count=2`
scenario. -/
def demoFS : FS := [("fileA", 10), ("fileB", 20), ("fileC", 30)]

/-- Registry configured with `max_count = 2`, empty, over `demoFS`. -/
def demoS0 : RegState :=
  { uploadDir := "uploads", maxQueueSize := 2, maxFileAgeHours := 1,
    fileQueue := [], fs := demoFS, manifest := .absent, saveCount := 0 }

/-- Empty registry with default capacity over a one-file filesystem. -/
def dupS0 : RegState :=
  { uploadDir := "uploads", maxQueueSize := 100, maxFileAgeHours := 1,
    fileQueue := [], fs := [("p.png", 7)], manifest := .absent, saveCount := 0 }

/-- The paths of the live records, in queue order. -/
def queuePaths (q : List Record) : List String :=
  q.map Record.file_path

/-- Whether a JSON value is an array, the `isinstance(data, list)` check
of `_load_queue` (file_queue.py line 63). -/
def isJsonList : Json → Bool
  | .arr _ => true
  | _ => false

/-- A call sequence exercising add, eviction and removal by identifier. -/
def c3Ops : List Op :=
  [.add "fileA" "id1" "input" 1, .add "fileB" "id1" "pattern" 2,
   .add "fileC" "id2" "input" 3, .removeById "id1"]

/-- Registry holding two `id1` records and one `id2` record, where the
first `id1` record's backing file `pA` is already gone from disk. -/
def c4S0 : RegState :=
  { uploadDir := "uploads", maxQueueSize := 100, maxFileAgeHours := 1,
    fileQueue := [⟨"id1", "pA", "pA", 10, 1, "t1", "input"⟩,
                  ⟨"id1", "pB", "pB", 20, 2, "t2", "pattern"⟩,
                  ⟨"id2", "pC", "pC", 30, 3, "t3", "input"⟩],
    fs := [("pB", 20), ("pC", 30)], manifest := .absent, saveCount := 0 }

/-- Like `c4S0` but with every backing file present on disk. -/
def c4S1 : RegState :=
  { uploadDir := "uploads", maxQueueSize := 100, maxFileAgeHours := 1,
    fileQueue := [⟨"id1", "pA", "pA", 10, 1, "t1", "input"⟩,
                  ⟨"id1", "pB", "pB", 20, 2, "t2", "pattern"⟩,
                  ⟨"id2", "pC", "pC", 30, 3, "t3", "input"⟩],
    fs := [("pA", 10), ("pB", 20), ("pC", 30)],
    manifest := .absent, saveCount := 0 }

/-- Over-capacity registry (`max_count = 2`, three records) whose oldest
record's backing file `pA` is already gone from disk. -/
def c6S0 : RegState :=
  { uploadDir := "uploads", maxQueueSize := 2, maxFileAgeHours := 1,
    fileQueue := [⟨"id1", "pA", "pA", 10, 1, "t1", "input"⟩,
                  ⟨"id1", "pB", "pB", 20, 2, "t2", "pattern"⟩,
                  ⟨"id2", "pC", "pC", 30, 3, "t3", "input"⟩],
    fs := [("pB", 20), ("pC", 30)], manifest := .absent, saveCount := 0 }

/-- Over-capacity registry (`max_count = 2`, three records) with every
backing file present on disk. -/
def c6S1 : RegState :=
  { uploadDir := "uploads", maxQueueSize := 2, maxFileAgeHours := 1,
    fileQueue := [⟨"id1", "pA", "pA", 10, 1, "t1", "input"⟩,
                  ⟨"id1", "pB", "pB", 20, 2, "t2", "pattern"⟩,
                  ⟨"id2", "pC", "pC", 30, 3, "t3", "input"⟩],
    fs := [("pA", 10), ("pB", 20), ("pC", 30)],
    manifest := .absent, saveCount := 0 }

/-- Registry holding one record whose file is exactly 3 MiB. -/
def c7S0 : RegState :=
  { uploadDir := "uploads", maxQueueSize := 100, maxFileAgeHours := 1,
    fileQueue := [⟨"id1", "pA", "pA", 3145728, 1, "t1", "input"⟩],
    fs := [("pA", 3145728)], manifest := .absent, saveCount := 0 }

/-- Over-capacity registry (`max_count = 2`) whose in-memory order is
newest first, so the surviving records change relative order after
count-based eviction. -/
def c9S0 : RegState :=
  { uploadDir := "uploads", maxQueueSize := 2, maxFileAgeHours := 1,
    fileQueue := [⟨"id2", "pC", "pC", 30, 3, "t3", "input"⟩,
                  ⟨"id1", "pB", "pB", 20, 2, "t2", "pattern"⟩,
                  ⟨"id1", "pA", "pA", 10, 1, "t1", "input"⟩],
    fs := [("pA", 10), ("pB", 20), ("pC", 30)],
    manifest := .absent, saveCount := 0 }

/-- Manifest holding well-formed JSON that is a mapping, not a list. -/
def wrongShape : MFile :=
  .jsonContent (.obj [("not", .str "a list")])

/-- Inserting a record is a permutation of consing it. -/
theorem insertByTimestamp_perm (a : Record) (l : List Record) :
    (insertByTimestamp a l).Perm (a :: l) := by
  induction l with
  | nil => simp [insertByTimestamp]
  | cons b l ih =>
      simp only [insertByTimestamp]
      split
      · exact (ih.cons b).trans (List.Perm.swap a b l)
      · exact List.Perm.refl _

/-- The insertion fold permutes its accumulator and input. -/
theorem foldl_insertByTimestamp_perm (q : List Record) :
    ∀ acc : List Record,
      (q.foldl (fun acc a => insertByTimestamp a acc) acc).Perm (acc ++ q) := by
  induction q with
  | nil => intro acc; simp
  | cons a q ih =>
      intro acc
      have h1 : (insertByTimestamp a acc ++ q).Perm ((a :: acc) ++ q) :=
        (insertByTimestamp_perm a acc).append_right q
      have h2 : ((a :: acc) ++ q).Perm (acc ++ a :: q) := by
        simpa using (@List.perm_middle _ a acc q).symm
      simpa using ((ih (insertByTimestamp a acc)).trans (h1.trans h2))

/-- The stable sort is a permutation of the queue: eviction keeps or
removes records, never invents or duplicates them. -/
theorem sortByTimestamp_perm (q : List Record) :
    (sortByTimestamp q).Perm q := by
  simpa [sortByTimestamp] using foldl_insertByTimestamp_perm q []

/-- Inserting into a timestamp-sorted list keeps it sorted. -/
theorem pairwise_insertByTimestamp {a : Record} {l : List Record}
    (h : l.Pairwise (fun x y => x.timestamp ≤ y.timestamp)) :
    (insertByTimestamp a l).Pairwise (fun x y => x.timestamp ≤ y.timestamp) := by
  induction l with
  | nil => simp [insertByTimestamp]
  | cons b l ih =>
      obtain ⟨hb, hl⟩ := List.pairwise_cons.1 h
      simp only [insertByTimestamp]
      split
      case isTrue hba =>
        refine List.pairwise_cons.2 ⟨?_, ih hl⟩
        intro x hx
        rcases List.mem_cons.1 ((insertByTimestamp_perm a l).mem_iff.1 hx) with
          hxa | hxl
        · rw [hxa]; exact hba
        · exact hb x hxl
      case isFalse hba =>
        have hab : a.timestamp ≤ b.timestamp := le_of_not_le hba
        refine List.pairwise_cons.2 ⟨?_, h⟩
        intro x hx
        rcases List.mem_cons.1 hx with hxb | hxl
        · rw [hxb]; exact hab
        · exact hab.trans (hb x hxl)

/-- The stable sort is sorted by timestamp. -/
theorem sortByTimestamp_sorted (q : List Record) :
    (sortByTimestamp q).Pairwise (fun x y => x.timestamp ≤ y.timestamp) := by
  have general : ∀ (l acc : List Record),
      acc.Pairwise (fun x y => x.timestamp ≤ y.timestamp) →
      (l.foldl (fun acc a => insertByTimestamp a acc) acc).Pairwise
        (fun x y => x.timestamp ≤ y.timestamp) := by
    intro l
    induction l with
    | nil => intro acc h; simpa
    | cons a l ih => intro acc h; exact ih _ (pairwise_insertByTimestamp h)
  simpa [sortByTimestamp] using general q [] (by simp)

/-- Deleting a different path leaves a file's existence unchanged. -/
theorem pathExists_removeFromFS {p q : String} (fs : FS) (h : p ≠ q) :
    pathExists (removeFromFS fs q) p = pathExists fs p := by
  unfold pathExists removeFromFS
  rw [Bool.eq_iff_iff]
  simp only [List.any_eq_true, List.mem_filter, beq_iff_eq,
    Bool.not_eq_true', beq_eq_false_iff_ne]
  constructor
  · rintro ⟨e, ⟨he, _⟩, hep⟩
    exact ⟨e, he, hep⟩
  · rintro ⟨e, he, hep⟩
    refine ⟨e, ⟨he, ?_⟩, hep⟩
    rw [hep]
    exact h

/-- The deletion loop, counting from `n`: its count is `n` plus the
number of records whose backing file existed at entry, provided the
records' paths are pairwise distinct. -/
theorem deleteFiles_go (rs : List Record) :
    ∀ (n : ℕ) (fs : FS), ((rs.map Record.file_path).Nodup) →
      (rs.foldl
        (fun acc r =>
          if pathExists acc.2 r.file_path then
            (acc.1 + 1, removeFromFS acc.2 r.file_path)
          else acc)
        (n, fs)).1
      = n + rs.countP (fun r => pathExists fs r.file_path) := by
  induction rs with
  | nil => intro n fs _; simp
  | cons r rs ih =>
      intro n fs h
      simp only [List.map_cons, List.nodup_cons, List.mem_map] at h
      obtain ⟨hr, hrs⟩ := h
      have hcong : rs.countP
            (fun x => pathExists (removeFromFS fs r.file_path) x.file_path)
          = rs.countP (fun x => pathExists fs x.file_path) := by
        apply List.countP_congr
        intro x hx
        have hne : x.file_path ≠ r.file_path := fun he => hr ⟨x, hx, he⟩
        rw [pathExists_removeFromFS fs hne]
      simp only [List.foldl_cons]
      by_cases hc : pathExists fs r.file_path = true
      · rw [if_pos hc, ih (n + 1) (removeFromFS fs r.file_path) hrs, hcong,
          List.countP_cons_of_pos (fun x => pathExists fs x.file_path) rs hc]
        omega
      · rw [if_neg hc, ih n fs hrs,
          List.countP_cons_of_neg (fun x => pathExists fs x.file_path) rs hc]

/-- The deletion loop returns the number of listed records whose backing
file existed, when the listed paths are pairwise distinct. -/
theorem deleteFiles_count (fs : FS) (rs : List Record)
    (h : (rs.map Record.file_path).Nodup) :
    (deleteFiles fs rs).1 = rs.countP (fun r => pathExists fs r.file_path) := by
  simpa [deleteFiles] using deleteFiles_go rs 0 fs h

/-- Decoding inverts encoding on every record. -/
theorem decodeRecord_encodeRecord (r : Record) :
    decodeRecord (encodeRecord r) = some r := by
  simp [decodeRecord, encodeRecord, jStr, jNat, jRat, List.lookup,
    Rat.den_natCast, Rat.num_natCast, Int.toNat_natCast]

/-- Decoding inverts encoding on every queue. -/
theorem mapM_decodeRecord_encodeRecord (q : List Record) :
    (q.map encodeRecord).mapM decodeRecord = some q := by
  induction q with
  | nil => rfl
  | cons r q ih =>
      rw [List.map_cons, List.mapM_cons, decodeRecord_encodeRecord, ih]
      rfl

/-- Paths of the post-eviction queue keep distinctness. -/
theorem nodup_enforceQueueSize (s : RegState)
    (h : (queuePaths s.fileQueue).Nodup) :
    (queuePaths (enforceQueueSize s).2.fileQueue).Nodup := by
  unfold enforceQueueSize
  split
  · exact h
  · have hperm : (queuePaths (sortByTimestamp s.fileQueue)).Perm
        (queuePaths s.fileQueue) :=
      (sortByTimestamp_perm s.fileQueue).map Record.file_path
    have hnd : (queuePaths (sortByTimestamp s.fileQueue)).Nodup :=
      hperm.nodup_iff.2 h
    simp only [saveQueue, queuePaths, List.map_drop]
    exact List.Nodup.sublist (List.drop_sublist _ _)
      (by simpa [queuePaths] using hnd)

/-- Adding a fresh path keeps the live paths distinct. -/
theorem nodup_addFile (s : RegState) (p fid ftype : String) (now : ℚ)
    (h : (queuePaths s.fileQueue).Nodup)
    (hfresh : p ∉ queuePaths s.fileQueue) :
    (queuePaths (addFile s p fid ftype now).2.fileQueue).Nodup := by
  unfold addFile
  split
  · apply nodup_enforceQueueSize
    simp only [saveQueue, queuePaths, List.map_append, List.map_cons,
      List.map_nil, mkRecord]
    rw [List.nodup_append]
    refine ⟨h, List.nodup_singleton _, ?_⟩
    simpa [List.disjoint_singleton, queuePaths] using hfresh
  · exact h

/-- Removal by path keeps the live paths distinct. -/
theorem nodup_removeFile (s : RegState) (p : String)
    (h : (queuePaths s.fileQueue).Nodup) :
    (queuePaths (removeFile s p).2.fileQueue).Nodup := by
  unfold removeFile
  split
  · simp only [saveQueue, queuePaths]
    exact List.Nodup.sublist
      ((List.filter_sublist _).map Record.file_path) h
  · exact h

/-- Removal by artifact identifier keeps the live paths distinct. -/
theorem nodup_removeByFileId (s : RegState) (fid : String)
    (h : (queuePaths s.fileQueue).Nodup) :
    (queuePaths (removeByFileId s fid).2.fileQueue).Nodup := by
  by_cases hE : (s.fileQueue.filter (fun f => f.file_id == fid)).isEmpty = true
  · simpa [removeByFileId, hE] using h
  · simp only [removeByFileId, hE, if_false, saveQueue, queuePaths]
    exact List.Nodup.sublist
      ((List.filter_sublist _).map Record.file_path) h

/-- Rounding to two decimals is the identity on integral values. -/
theorem pyRound2_natCast (n : ℕ) : pyRound2 ((n : ℕ) : ℚ) = (n : ℚ) := by
  unfold pyRound2 roundHalfEven
  have h1 : ((n : ℚ) * 100) = (((n * 100 : ℕ) : ℤ) : ℚ) := by push_cast; ring
  rw [h1, Int.fract_intCast]
  rw [if_neg (by norm_num), round_intCast]
  push_cast
  ring_nf

/-- C1: the claim states that every `Add(path, artifact_id, category)`
call on an existing path completes and returns.  The code does not:
`add_file` runs its whole body inside `with self.lock:` on the
non-reentrant `threading.Lock` and then calls `enforce_queue_size`,
whose own `with self.lock:` blocks forever on the already-held lock.
For every registry state with the lock free and every path that exists
on disk, the call never completes (`none` in the lock model). -/
theorem addFile_deadlocks (s : RegState) (path fid ftype : String) (now : ℚ)
    (h : pathExists s.fs path = true) :
    addFileL path fid ftype now (s, false) = none := by
  simp [addFileL, withLock, acquireLock, enforceQueueSizeL, h]

/-- Witness for C1: a concrete `Add` of an existing file never completes. -/
theorem addFile_deadlocks_witness :
    addFileL "p.png" "idX" "input" 5 (dupS0, false) = none :=
  addFile_deadlocks dupS0 "p.png" "idX" "input" 5 (by decide)

/-- C2: the spec scenario with `max_count = 2`.  First conjunct: on the
real code the very first `Add` of an existing file already deadlocks and
never returns, so the claim's "returns the new record" fails.  Remaining
conjuncts: under the intended atomic semantics of each lock block the
scenario's functional content holds — after the three adds exactly two
records remain, fileA's record (the oldest) has been evicted, and the
third call's result is fileC's record. -/
theorem addFile_scenario_maxCount2 :
    addFileL "fileA" "id1" "input" 1 (demoS0, false) = none ∧
    ((runOps demoS0 [.add "fileA" "id1" "input" 1,
        .add "fileB" "id1" "pattern" 2,
        .add "fileC" "id2" "input" 3]).fileQueue.map Record.file_path
      = ["fileB", "fileC"] ∧
     (runOps demoS0 [.add "fileA" "id1" "input" 1,
        .add "fileB" "id1" "pattern" 2,
        .add "fileC" "id2" "input" 3]).fileQueue.length = 2 ∧
     ((addFile (runOps demoS0 [.add "fileA" "id1" "input" 1,
          .add "fileB" "id1" "pattern" 2]) "fileC" "id2" "input" 3).1.map
        Record.file_path) = some "fileC") :=
  ⟨rfl, by decide, by decide, by decide⟩

/-- C3 counterexample: `add_file` never checks whether the path is
already live, so two `Add` calls with the same existing path leave two
live records sharing one path, refuting the uniqueness invariant as
stated. -/
theorem path_not_unique :
    ¬ (queuePaths (runOps dupS0
        [.add "p.png" "id1" "input" 1,
         .add "p.png" "id2" "input" 2]).fileQueue).Nodup := by
  decide

/-- C3 amended: for every sequence of Add / RemoveByPath /
RemoveByArtifactId calls in which each Add supplies a path distinct from
every then-live record's path, path uniqueness of the live records is
preserved from any state where it holds (hence along every prefix, since
the hypotheses restrict to prefixes). -/
theorem registry_paths_nodup : ∀ (ops : List Op) (s : RegState),
    (queuePaths s.fileQueue).Nodup → freshAdds s ops = true →
    (queuePaths (runOps s ops).fileQueue).Nodup := by
  intro ops
  induction ops with
  | nil => intro s h0 _; simpa [runOps] using h0
  | cons op rest ih =>
      intro s h0 h
      have hrun : runOps s (op :: rest) = runOps (applyOp s op) rest := rfl
      rw [hrun]
      cases op with
      | add p fid ftype now =>
          simp only [freshAdds, Bool.and_eq_true, decide_eq_true_eq] at h
          exact ih _ (nodup_addFile s p fid ftype now h0 h.1) h.2
      | removeByPath p =>
          simp only [freshAdds, Bool.and_eq_true] at h
          exact ih _ (nodup_removeFile s p h0) h.2
      | removeById fid =>
          simp only [freshAdds, Bool.and_eq_true] at h
          exact ih _ (nodup_removeByFileId s fid h0) h.2

/-- Witness for C3: a concrete call sequence with fresh paths, including
an eviction-triggering add and a removal, keeps live paths unique. -/
theorem registry_paths_nodup_witness :
    freshAdds demoS0 c3Ops = true ∧
    (queuePaths (runOps demoS0 c3Ops).fileQueue).Nodup :=
  ⟨by decide, registry_paths_nodup c3Ops demoS0 (by decide) (by decide)⟩

/-- C4 counterexample: two records share `id1` but the first one's
backing file `pA` is already gone from disk.  `remove_by_file_id("id1")`
removes both records (only the `id2` record remains) yet returns 1, not
the claimed 2: the counter is incremented only inside the
`os.path.exists` branch (file_queue.py lines 199-202). -/
theorem removeByFileId_count_mismatch :
    (removeByFileId c4S0 "id1").1 = 1 ∧
    (c4S0.fileQueue.filter (fun f => f.file_id == "id1")).length = 2 ∧
    (removeByFileId c4S0 "id1").2.fileQueue.map Record.file_id = ["id2"] ∧
    (1 : ℕ) ≠ 2 := by
  refine ⟨by decide, by decide, by decide, by decide⟩

/-- C4 amended: when at least one record matches, RemoveByArtifactId
removes every matching record from the registry (keeping the rest in
order), persists once, and returns the number of matching records whose
backing file existed on disk — which can be fewer than the number of
records removed.  (With no match it returns 0 without persisting.) -/
theorem removeByFileId_spec (s : RegState) (fid : String)
    (hmatch : s.fileQueue.filter (fun f => f.file_id == fid) ≠ [])
    (hnd : (queuePaths s.fileQueue).Nodup) :
    (removeByFileId s fid).2.fileQueue =
      s.fileQueue.filter (fun f => !(f.file_id == fid)) ∧
    (removeByFileId s fid).1 =
      (s.fileQueue.filter (fun f => f.file_id == fid)).countP
        (fun r => pathExists s.fs r.file_path) ∧
    (removeByFileId s fid).2.saveCount = s.saveCount + 1 ∧
    (removeByFileId s fid).2.manifest =
      .jsonContent (encodeQueue ((removeByFileId s fid).2.fileQueue)) := by
  have hE : ¬ ((s.fileQueue.filter (fun f => f.file_id == fid)).isEmpty = true) :=
    fun hh => hmatch (List.isEmpty_iff.1 hh)
  have hndm : ((s.fileQueue.filter (fun f => f.file_id == fid)).map
      Record.file_path).Nodup :=
    List.Nodup.sublist ((List.filter_sublist _).map Record.file_path)
      (by simpa [queuePaths] using hnd)
  refine ⟨?_, ?_, ?_, ?_⟩
  · simp [removeByFileId, hE, saveQueue]
  · simp only [removeByFileId, hE, if_false]
    exact deleteFiles_count _ _ hndm
  · simp [removeByFileId, hE, saveQueue]
  · simp [removeByFileId, hE, saveQueue]

/-- Witness for C4: with every backing file present, removing `id1`
removes both matching records and reports 2. -/
theorem removeByFileId_spec_witness :
    (removeByFileId c4S1 "id1").2.fileQueue =
      c4S1.fileQueue.filter (fun f => !(f.file_id == "id1")) ∧
    (removeByFileId c4S1 "id1").1 = 2 := by
  have hsp := removeByFileId_spec c4S1 "id1" (by decide) (by decide)
  exact ⟨hsp.1, by rw [hsp.2.1]; decide⟩

/-- C5 counterexample: a manifest holding the well-formed JSON mapping
`{"not": "a list"}`.  `load()` does return an empty sequence, but no
archived copy is made: the rename-aside happens only in the
`JSONDecodeError` branch (file_queue.py lines 70-79), which valid JSON
of the wrong shape never reaches — refuting the claim's archiving half. -/
theorem load_wrong_shape_no_backup :
    (loadQueue wrongShape).records = [] ∧
    (loadQueue wrongShape).backupMade = false :=
  ⟨rfl, rfl⟩

/-- C5 amended: well-formed JSON that is not a list loads as an empty
queue with no backup made (the original file is left in place until the
next save overwrites it); the timestamp-named backup copy is created
exactly when the content fails JSON parsing. -/
theorem load_wrong_shape_spec (j : Json) (h : isJsonList j = false) :
    loadQueue (.jsonContent j) = ⟨[], false⟩ ∧
    loadQueue .malformed = ⟨[], true⟩ := by
  refine ⟨?_, rfl⟩
  cases j <;> simp_all [loadQueue, isJsonList]

/-- Witness for C5: the spec's concrete wrong-shaped payload. -/
theorem load_wrong_shape_spec_witness :
    loadQueue (.jsonContent (.obj [("not", .str "a list")])) = ⟨[], false⟩ :=
  (load_wrong_shape_spec (.obj [("not", .str "a list")]) rfl).1

/-- C6 counterexample: over-capacity registry (3 records, `max_count = 2`)
whose oldest record's backing file is already gone.  Eviction removes
that record (the queue shrinks from 3 to 2) but returns 0, not the
removed-record count 1: `enforce_queue_size` counts only successful file
deletions (file_queue.py lines 261-267). -/
theorem enforce_count_mismatch :
    (enforceQueueSize c6S0).1 = 0 ∧
    (enforceQueueSize c6S0).2.fileQueue.length = 2 ∧
    c6S0.fileQueue.length = 3 ∧
    c6S0.maxQueueSize = 2 ∧
    (0 : ℕ) ≠ 1 := by
  refine ⟨by decide, by decide, by decide, by decide, by decide⟩

/-- C6 amended: at or under capacity, EvictOverflow is a no-op returning
0 (and does not persist).  Over capacity it keeps exactly the
`max_count` newest records — the stable-sorted-by-`created_at` suffix,
ties broken by position — so every evicted record's timestamp is at most
every survivor's; it persists once and returns the number of evicted
records whose backing file existed on disk (not the number of records
evicted). -/
theorem enforceQueueSize_spec (s : RegState)
    (hnd : (queuePaths s.fileQueue).Nodup) :
    (s.fileQueue.length ≤ s.maxQueueSize → enforceQueueSize s = (0, s)) ∧
    (s.maxQueueSize < s.fileQueue.length →
      ((enforceQueueSize s).2.fileQueue =
         (sortByTimestamp s.fileQueue).drop
           (s.fileQueue.length - s.maxQueueSize) ∧
       (enforceQueueSize s).2.fileQueue.length = s.maxQueueSize ∧
       (∀ r ∈ (sortByTimestamp s.fileQueue).take
            (s.fileQueue.length - s.maxQueueSize),
        ∀ r' ∈ (enforceQueueSize s).2.fileQueue,
          r.timestamp ≤ r'.timestamp) ∧
       (enforceQueueSize s).1 =
         ((sortByTimestamp s.fileQueue).take
            (s.fileQueue.length - s.maxQueueSize)).countP
           (fun r => pathExists s.fs r.file_path) ∧
       (enforceQueueSize s).2.saveCount = s.saveCount + 1)) := by
  constructor
  · intro hle
    simp [enforceQueueSize, hle]
  · intro hgt
    have hnle : ¬ (s.fileQueue.length ≤ s.maxQueueSize) := not_le.mpr hgt
    have hlen : (sortByTimestamp s.fileQueue).length = s.fileQueue.length :=
      (sortByTimestamp_perm s.fileQueue).length_eq
    have hq : (enforceQueueSize s).2.fileQueue =
        (sortByTimestamp s.fileQueue).drop
          (s.fileQueue.length - s.maxQueueSize) := by
      simp [enforceQueueSize, hnle, saveQueue, hlen]
    have hndsorted : ((sortByTimestamp s.fileQueue).map Record.file_path).Nodup := by
      have := ((sortByTimestamp_perm s.fileQueue).map Record.file_path).nodup_iff
      exact this.2 (by simpa [queuePaths] using hnd)
    have hndt : (((sortByTimestamp s.fileQueue).take
        (s.fileQueue.length - s.maxQueueSize)).map Record.file_path).Nodup :=
      List.Nodup.sublist
        ((List.take_sublist _ _).map Record.file_path) hndsorted
    have hsplit := List.take_append_drop
      (s.fileQueue.length - s.maxQueueSize) (sortByTimestamp s.fileQueue)
    have hpw := List.pairwise_append.1
      (show List.Pairwise (fun x y : Record => x.timestamp ≤ y.timestamp)
          ((sortByTimestamp s.fileQueue).take
              (s.fileQueue.length - s.maxQueueSize) ++
            (sortByTimestamp s.fileQueue).drop
              (s.fileQueue.length - s.maxQueueSize)) by
        rw [hsplit]; exact sortByTimestamp_sorted s.fileQueue)
    refine ⟨hq, ?_, ?_, ?_, ?_⟩
    · rw [hq, List.length_drop, hlen]
      omega
    · intro r hr r' hr'
      rw [hq] at hr'
      exact hpw.2.2 r hr r' hr'
    · simp only [enforceQueueSize, hnle, if_false, hlen]
      exact deleteFiles_count _ _ hndt
    · simp [enforceQueueSize, hnle, saveQueue]

/-- Witness for C6: a no-op call on an under-capacity registry, and an
over-capacity call that trims to capacity and reports one deletion. -/
theorem enforceQueueSize_spec_witness :
    enforceQueueSize demoS0 = (0, demoS0) ∧
    (enforceQueueSize c6S1).2.fileQueue.length = c6S1.maxQueueSize ∧
    (enforceQueueSize c6S1).1 = 1 := by
  have h1 := (enforceQueueSize_spec demoS0 (by decide)).1 (by decide)
  have h2 := (enforceQueueSize_spec c6S1 (by decide)).2 (by decide)
  refine ⟨h1, h2.2.1, ?_⟩
  rw [h2.2.2.2.1]
  decide

/-- C7 counterexample: for a single record of exactly 3 MiB, the stats'
size field is `3` (megabytes, `total_size_mb`) while the sum of
`size_bytes` over live records is `3145728` — the stats carry no
`total_size_bytes` field equal to the byte sum, refuting the claim. -/
theorem stats_size_mb_not_bytes :
    (getQueueStats c7S0).1.total_size_mb = 3 ∧
    totalSize c7S0.fileQueue = 3145728 ∧
    ((3 : ℚ) ≠ (3145728 : ℚ)) := by
  refine ⟨?_, by decide, by norm_num⟩
  have h1 : (getQueueStats c7S0).1.total_size_mb
      = pyRound2 (((3145728 : ℕ) : ℚ) / (1024 * 1024)) := rfl
  have h2 : (((3145728 : ℕ) : ℚ) / (1024 * 1024)) = ((3 : ℕ) : ℚ) := by
    norm_num
  rw [h1, h2, pyRound2_natCast]
  norm_num

/-- C7 amended: Stats is a pure read — the registry state after the call
is exactly the state before, with no eviction side effect — and reports
`total_files` equal to the number of live records; the size is exposed
as `total_size_mb`, the byte sum divided by 1024*1024 and rounded to two
decimals, not as a byte count. -/
theorem getQueueStats_spec (s : RegState) :
    (getQueueStats s).2 = s ∧
    (getQueueStats s).1.total_files = s.fileQueue.length ∧
    (getQueueStats s).1.total_size_mb =
      pyRound2 ((totalSize s.fileQueue : ℚ) / (1024 * 1024)) ∧
    (getQueueStats s).1.max_queue_size = s.maxQueueSize ∧
    (getQueueStats s).1.files_by_type = countByType s.fileQueue :=
  ⟨rfl, rfl, rfl, rfl, rfl⟩

/-- C8: persisting any registry state and loading the manifest back
reproduces exactly the live record sequence — same records, same field
values, same order — with no backup made. -/
theorem save_load_roundtrip (s : RegState) :
    loadQueue (saveQueue s).manifest = ⟨s.fileQueue, false⟩ := by
  have hm : (saveQueue s).manifest =
      .jsonContent (encodeQueue s.fileQueue) := rfl
  have hmm : List.mapM.loop decodeRecord (List.map encodeRecord s.fileQueue) []
      = some s.fileQueue := mapM_decodeRecord_encodeRecord s.fileQueue
  rw [hm]
  simp [loadQueue, encodeQueue, hmm]

/-- C9: whenever count-based eviction removes anything, the surviving
queue is the drop of the stable timestamp sort — left in
`created_at`-ascending order both in memory and in the manifest written
by the same call — and this does not preserve the previous relative
order: at `c9S0` (stored newest-first) the survivors are not a
subsequence of the original queue. -/
theorem enforce_reorders (s : RegState)
    (h : s.maxQueueSize < s.fileQueue.length) :
    ((enforceQueueSize s).2.fileQueue =
       (sortByTimestamp s.fileQueue).drop
         (s.fileQueue.length - s.maxQueueSize) ∧
     (enforceQueueSize s).2.fileQueue.Pairwise
       (fun a b => a.timestamp ≤ b.timestamp) ∧
     (enforceQueueSize s).2.manifest =
       .jsonContent (encodeQueue ((enforceQueueSize s).2.fileQueue))) ∧
    ¬ (List.Sublist (enforceQueueSize c9S0).2.fileQueue c9S0.fileQueue) := by
  have hnle : ¬ (s.fileQueue.length ≤ s.maxQueueSize) := not_le.mpr h
  have hlen : (sortByTimestamp s.fileQueue).length = s.fileQueue.length :=
    (sortByTimestamp_perm s.fileQueue).length_eq
  have hq : (enforceQueueSize s).2.fileQueue =
      (sortByTimestamp s.fileQueue).drop
        (s.fileQueue.length - s.maxQueueSize) := by
    simp [enforceQueueSize, hnle, saveQueue, hlen]
  refine ⟨⟨hq, ?_, ?_⟩, by decide⟩
  · rw [hq]
    exact List.Pairwise.sublist (List.drop_sublist _ _)
      (sortByTimestamp_sorted s.fileQueue)
  · simp [enforceQueueSize, hnle, saveQueue]

/-- Witness for C9: at the concrete newest-first state the survivors are
the sorted suffix and are not in the original relative order. -/
theorem enforce_reorders_witness :
    (enforceQueueSize c9S0).2.fileQueue =
      (sortByTimestamp c9S0.fileQueue).drop
        (c9S0.fileQueue.length - c9S0.maxQueueSize) ∧
    ¬ (List.Sublist (enforceQueueSize c9S0).2.fileQueue c9S0.fileQueue) :=
  ⟨(enforce_reorders c9S0 (by decide)).1.1,
   (enforce_reorders c9S0 (by decide)).2⟩

/-- C10: a second call to `init_queue_manager` finds the module global
already set and returns the existing manager unchanged, silently
ignoring every configuration argument (directory, capacity, age) of the
second call. -/
theorem initQueueManager_second_call (mgr : RegState) (uploadDir : String)
    (maxQ maxAge : ℕ) (m : MFile) (fs : FS) :
    initQueueManager (some mgr) uploadDir maxQ maxAge m fs = (mgr, some mgr) ∧
    (initQueueManager (some mgr) uploadDir maxQ maxAge m fs).1.maxQueueSize
      = mgr.maxQueueSize ∧
    (initQueueManager (some mgr) uploadDir maxQ maxAge m fs).1.uploadDir
      = mgr.uploadDir ∧
    (initQueueManager (some mgr) uploadDir maxQ maxAge m fs).1.maxFileAgeHours
      = mgr.maxFileAgeHours :=
  ⟨rfl, rfl, rfl, rfl⟩

end FileQueue
